import Mathlib

/-!
Verification of the stealth / rate-limiting core of the
linkedin-automation-poc repository, as a shallow embedding in Lean 4.

The embedded functions follow the Go source in `stealth/stealth.go` and
`config/config.go`.  Go machine integers are modelled as `Int` (no
overflow is relevant at the values involved), `float64` quantities are
modelled as exact rationals `ℚ` (or reals `ℝ` where the source uses
`math.Sin`), Go maps with zero-value defaults become total functions,
and Go code that can panic returns `Option`.
-/

/-- A wall-clock instant, restricted to the fields the rate limiter and
scheduler actually read from Go's `time.Time`: `Year()`, `YearDay()`,
`Hour()` and `Weekday()` (Go numbering: Sunday = 0, ..., Saturday = 6). -/
structure GoTime where
  year : Int
  yearDay : Int
  hour : Int
  weekday : Int
deriving DecidableEq, Repr

/-- `config.RateLimitConfig` (config/config.go): the numeric fields read
by the rate limiter. -/
structure RateLimitConfig where
  MaxConnectionsPerDay : Int
  MaxMessagesPerDay : Int
  MaxProfileViewsPerDay : Int
  MaxSearchesPerHour : Int
  CooldownMinutes : Int
  MinDelayBetweenActions : Int
  MaxDelayBetweenActions : Int
deriving DecidableEq, Repr

/-- The mutable state of `stealth.RateLimiter`: the `actionCounts` map
(string-keyed, zero default, modelled as a total function) and the
`lastReset` timestamp.  `lastAction` is modelled separately where
`WaitForNextAction` is analysed. -/
structure RateLimiterState where
  actionCounts : String → Int
  lastReset : GoTime

/-- `stealth.NewRateLimiter`: fresh counters (empty map, so every count
reads as 0) with `lastReset` set to the construction time. -/
def RateLimiter.new (t0 : GoTime) : RateLimiterState :=
  { actionCounts := fun _ => 0, lastReset := t0 }

/-- `RateLimiter.checkReset` (stealth.go lines 739-755): zero the daily
counters when the calendar day has changed (also updating `lastReset`),
then zero the hourly `search` counter when the hour differs from
`lastReset`'s hour.  Note the source updates `lastReset` only in the
daily branch. -/
def RateLimiter.checkReset (now : GoTime) (r : RateLimiterState) : RateLimiterState :=
  let r1 :=
    if now.yearDay ≠ r.lastReset.yearDay ∨ now.year ≠ r.lastReset.year then
      { r with
        actionCounts := fun a =>
          if a = "connection" ∨ a = "message" ∨ a = "profile_view" then 0
          else r.actionCounts a,
        lastReset := now }
    else r
  if now.hour ≠ r1.lastReset.hour then
    { r1 with actionCounts := fun a => if a = "search" then 0 else r1.actionCounts a }
  else r1

/-- The per-category limit selected by the `switch` in
`CanPerformAction` / `GetRemainingActions`; `none` is the `default`
branch. -/
def RateLimiter.limitFor (cfg : RateLimitConfig) (actionType : String) : Option Int :=
  if actionType = "connection" then some cfg.MaxConnectionsPerDay
  else if actionType = "message" then some cfg.MaxMessagesPerDay
  else if actionType = "profile_view" then some cfg.MaxProfileViewsPerDay
  else if actionType = "search" then some cfg.MaxSearchesPerHour
  else none

/-- `RateLimiter.CanPerformAction` (stealth.go lines 658-682): runs the
rollover check, then compares the current count against the per-category
limit; unknown categories return `true`. -/
def RateLimiter.CanPerformAction (cfg : RateLimitConfig) (now : GoTime)
    (r : RateLimiterState) (actionType : String) : Bool :=
  let r' := RateLimiter.checkReset now r
  match RateLimiter.limitFor cfg actionType with
  | none => true
  | some limit => decide (r'.actionCounts actionType < limit)

/-- `RateLimiter.RecordAction` (stealth.go lines 685-693): increment the
category's counter (the `lastAction` timestamp update is irrelevant to
the counters). -/
def RateLimiter.RecordAction (actionType : String) (r : RateLimiterState) :
    RateLimiterState :=
  { r with actionCounts := fun a =>
      if a = actionType then r.actionCounts a + 1 else r.actionCounts a }

/-- `RateLimiter.GetRemainingActions` (stealth.go lines 718-736): runs
the rollover check, then returns `limit - count`; unknown categories
return the constant 999. -/
def RateLimiter.GetRemainingActions (cfg : RateLimitConfig) (now : GoTime)
    (r : RateLimiterState) (actionType : String) : Int :=
  let r' := RateLimiter.checkReset now r
  match RateLimiter.limitFor cfg actionType with
  | none => 999
  | some limit => limit - r'.actionCounts actionType

/-- `config.ScheduleConfig`: the fields read by
`Scheduler.IsWithinOperatingHours`. -/
structure ScheduleConfig where
  Enabled : Bool
  StartHour : Int
  EndHour : Int
  WorkDaysOnly : Bool
deriving DecidableEq, Repr

/-- `Scheduler.IsWithinOperatingHours` (stealth.go lines 575-600):
always true when disabled; false on Saturday/Sunday when
`WorkDaysOnly`; false when the current hour is below `StartHour` or at
least `EndHour`; true otherwise. -/
def Scheduler.IsWithinOperatingHours (cfg : ScheduleConfig) (now : GoTime) : Bool :=
  if !cfg.Enabled then true
  else if cfg.WorkDaysOnly ∧ (now.weekday = 6 ∨ now.weekday = 0) then false
  else if now.hour < cfg.StartHour ∨ now.hour ≥ cfg.EndHour then false
  else true

/-- Go's `rand.Int63n(n)`: returns a uniform value in `[0, n)` when
`n > 0` and panics (`none`) when `n ≤ 0`.  The random draw is modelled
by an arbitrary natural number reduced modulo `n`. -/
def randInt63n (n : Int) (draw : Nat) : Option Int :=
  if 0 < n then some ((draw : Int) % n) else none

/-- The delay `WaitForNextAction` (stealth.go lines 696-708) targets:
`minDelay + rand.Int63n(maxDelay - minDelay)`.  The subsequent sleep
truncates a negative remainder at zero and cannot fail; the only
failure surface is the `Int63n` call, so the function is `none` exactly
when that call panics. -/
def RateLimiter.waitForNextActionDelay (cfg : RateLimitConfig) (draw : Nat) :
    Option Int :=
  (randInt63n (cfg.MaxDelayBetweenActions - cfg.MinDelayBetweenActions) draw).map
    (fun r => cfg.MinDelayBetweenActions + r)

/-- `StealthManager.randomHardwareConcurrency` (stealth.go lines
306-309): picks one of `[4, 8, 12, 16]` and builds a one-character
string from the rune `'0' + cores[i]` (codepoint 48 plus the chosen
core count). -/
def randomHardwareConcurrency (draw : Nat) : String :=
  let cores : List Int := [4, 8, 12, 16]
  String.mk [Char.ofNat (48 + (cores.getD (draw % 4) 0)).toNat]

/-- The fields of `config.Config` that `Config.Validate` reads, plus
the delay-range fields the spec says validation must reject. -/
structure Config where
  LinkedInEmail : String
  LinkedInPassword : String
  RateLimits : RateLimitConfig
  ScheduleStartHour : Int
  ScheduleEndHour : Int
  LoggingLevel : String
  TypingDelayMin : Int
  TypingDelayMax : Int
deriving DecidableEq, Repr

/-- `Config.Validate` (config/config.go lines 304-336): returns the
first failing check's error message, or `none` when the configuration
is accepted.  The source checks exactly: non-empty credentials,
`MaxConnectionsPerDay ∈ [0, 100]`, `MaxMessagesPerDay ∈ [0, 150]`,
schedule hours in `[0, 23]`, and a known logging level — and nothing
about any min/max delay pair. -/
def Config.Validate (c : Config) : Option String :=
  if c.LinkedInEmail = "" then some "LinkedIn email is required"
  else if c.LinkedInPassword = "" then some "LinkedIn password is required"
  else if c.RateLimits.MaxConnectionsPerDay < 0 ∨ c.RateLimits.MaxConnectionsPerDay > 100 then
    some "max_connections_per_day must be between 0 and 100"
  else if c.RateLimits.MaxMessagesPerDay < 0 ∨ c.RateLimits.MaxMessagesPerDay > 150 then
    some "max_messages_per_day must be between 0 and 150"
  else if c.ScheduleStartHour < 0 ∨ c.ScheduleStartHour > 23 then
    some "start_hour must be between 0 and 23"
  else if c.ScheduleEndHour < 0 ∨ c.ScheduleEndHour > 23 then
    some "end_hour must be between 0 and 23"
  else if ¬ (c.LoggingLevel = "debug" ∨ c.LoggingLevel = "info" ∨
      c.LoggingLevel = "warn" ∨ c.LoggingLevel = "error") then
    some "invalid log level"
  else none

/-- The QWERTY adjacency table of `StealthManager.getAdjacentKey`
(stealth.go lines 460-487); `none` models a key absent from the Go
map. -/
def adjacentKeys (c : Char) : Option (List Char) :=
  if c = 'a' then some ['s', 'q', 'z']
  else if c = 'b' then some ['v', 'n', 'g', 'h']
  else if c = 'c' then some ['x', 'v', 'd', 'f']
  else if c = 'd' then some ['s', 'f', 'e', 'r', 'c', 'x']
  else if c = 'e' then some ['w', 'r', 'd', 's']
  else if c = 'f' then some ['d', 'g', 'r', 't', 'v', 'c']
  else if c = 'g' then some ['f', 'h', 't', 'y', 'b', 'v']
  else if c = 'h' then some ['g', 'j', 'y', 'u', 'n', 'b']
  else if c = 'i' then some ['u', 'o', 'k', 'j']
  else if c = 'j' then some ['h', 'k', 'u', 'i', 'm', 'n']
  else if c = 'k' then some ['j', 'l', 'i', 'o', 'm']
  else if c = 'l' then some ['k', 'o', 'p']
  else if c = 'm' then some ['n', 'j', 'k']
  else if c = 'n' then some ['b', 'm', 'h', 'j']
  else if c = 'o' then some ['i', 'p', 'k', 'l']
  else if c = 'p' then some ['o', 'l']
  else if c = 'q' then some ['w', 'a']
  else if c = 'r' then some ['e', 't', 'd', 'f']
  else if c = 's' then some ['a', 'd', 'w', 'e', 'z', 'x']
  else if c = 't' then some ['r', 'y', 'f', 'g']
  else if c = 'u' then some ['y', 'i', 'h', 'j']
  else if c = 'v' then some ['c', 'b', 'f', 'g']
  else if c = 'w' then some ['q', 'e', 'a', 's']
  else if c = 'x' then some ['z', 'c', 's', 'd']
  else if c = 'y' then some ['t', 'u', 'g', 'h']
  else if c = 'z' then some ['a', 'x']
  else none

/-- `StealthManager.getAdjacentKey` (stealth.go lines 459-502):
uppercase letters are lowered (codepoint + 32), an adjacent key is
drawn from the table entry, case is restored; a character with no
table entry is returned unchanged. -/
def getAdjacentKey (char : Char) (draw : Nat) : Char :=
  let isUpper := 'A' ≤ char ∧ char ≤ 'Z'
  let lowerChar := if isUpper then Char.ofNat (char.toNat + 32) else char
  match adjacentKeys lowerChar with
  | some adjacent =>
      let result := adjacent.getD (draw % adjacent.length) 'a'
      if isUpper then Char.ofNat (result.toNat - 32) else result
  | none => char

/-- One observable keystroke of `HumanType`: a character sent to the
element via `Input`, or a `Backspace` key press. -/
inductive TypeEvent where
  | key : Char → TypeEvent
  | backspace : TypeEvent
deriving DecidableEq, Repr

/-- The keystroke trace of `StealthManager.HumanType` (stealth.go
lines 412-456) from position `i` on.  For each character: when the
mistake rate is positive and the per-position draw falls below it, a
"wrong" character (`getAdjacentKey`) is typed and deleted with a
Backspace; then the correct character is typed.  Sleeps carry no
observable keystroke and are omitted. -/
def humanTypeAux (mistakeRate : ℚ) (mistakeDraw : Nat → ℚ) (adjDraw : Nat → Nat) :
    Nat → List Char → List TypeEvent
  | _, [] => []
  | i, c :: rest =>
      (if 0 < mistakeRate ∧ mistakeDraw i < mistakeRate then
        [TypeEvent.key (getAdjacentKey c (adjDraw i)), TypeEvent.backspace]
      else []) ++ [TypeEvent.key c] ++ humanTypeAux mistakeRate mistakeDraw adjDraw (i + 1) rest

/-- `StealthManager.HumanType` as a keystroke trace over the whole
text. -/
def humanType (mistakeRate : ℚ) (mistakeDraw : Nat → ℚ) (adjDraw : Nat → Nat)
    (text : List Char) : List TypeEvent :=
  humanTypeAux mistakeRate mistakeDraw adjDraw 0 text

/-- The text an input field holds after a keystroke trace: characters
append, Backspace removes the last character. -/
def applyEvents (events : List TypeEvent) : List Char :=
  events.foldl (fun buf e =>
    match e with
    | TypeEvent.key c => buf ++ [c]
    | TypeEvent.backspace => buf.dropLast) []

/-- `stealth.Point` over exact rationals. -/
structure Point where
  x : ℚ
  y : ℚ
deriving DecidableEq, Repr

/-- `StealthManager.cubicBezier` (stealth.go lines 111-122). -/
def cubicBezier (t : ℚ) (p0 p1 p2 p3 : Point) : Point :=
  let u := 1 - t
  let tt := t * t
  let uu := u * u
  let uuu := uu * u
  let ttt := tt * t
  { x := uuu * p0.x + 3 * uu * t * p1.x + 3 * u * tt * p2.x + ttt * p3.x,
    y := uuu * p0.y + 3 * uu * t * p1.y + 3 * u * tt * p2.y + ttt * p3.y }

/-- The step count of `generateBezierPath`: `int(distance/10) + 10`
(stealth.go line 88).  `distance` is the Euclidean distance, modelled
here as an arbitrary rational (its square root is irrational in
general; no claim depends on its value). -/
def numStepsFor (distance : ℚ) : Nat :=
  (⌊distance / 10⌋).toNat + 10

/-- `StealthManager.generateBezierPath` (stealth.go lines 85-108) with
the randomly offset control points `ctrl1`, `ctrl2` taken as
parameters: point `i` of `numSteps` is the cubic Bézier at
`t = i / (numSteps - 1)`.  (`end` is a Lean keyword; the end point is
named `stop`.) -/
def generateBezierPath (numSteps : Nat) (ctrl1 ctrl2 : Point) (start stop : Point) :
    List Point :=
  (List.range numSteps).map (fun (i : Nat) =>
    cubicBezier ((i : ℚ) / ((numSteps : ℚ) - 1)) start ctrl1 ctrl2 stop)

/-- `StealthManager.addOvershoot` (stealth.go lines 125-145) with the
random overshoot offsets `oX`, `oY` and the correction-step count
(`3 + rand.Intn(3)` in the source) taken as parameters: append the
overshoot point, then `correctionSteps` points interpolating back to
the exact target at `t = (i+1)/correctionSteps`. -/
def addOvershoot (points : List Point) (targetX targetY : ℚ) (oX oY : ℚ)
    (correctionSteps : Nat) : List Point :=
  let overshootPoint : Point := { x := targetX + oX, y := targetY + oY }
  (points ++ [overshootPoint]) ++
    (List.range correctionSteps).map (fun (i : Nat) =>
      let t : ℚ := ((i : ℚ) + 1) / (correctionSteps : ℚ)
      { x := overshootPoint.x + (targetX - overshootPoint.x) * t,
        y := overshootPoint.y + (targetY - overshootPoint.y) * t })

/-- Go's `int(x)` conversion from `float64`: truncation toward zero. -/
noncomputable def goTrunc (x : ℝ) : ℤ :=
  if 0 ≤ x then ⌊x⌋ else ⌈x⌉

/-- The core of `StealthManager.calculateMovementDelay` (stealth.go
lines 156-167), parameterised by the already-derived delay bounds
`minDelay = int(MouseSpeedMin * 5)` and `maxDelay =
int(MouseSpeedMax * 15)`: `easeFactor = sin((step/totalSteps) * π)`
and the result is `maxDelay - int((maxDelay - minDelay) * easeFactor)`
plus the jitter `rand.Intn(3)`. -/
noncomputable def calculateMovementDelayCore (minDelay maxDelay : ℤ)
    (step totalSteps : Nat) (jitter : Nat) : ℤ :=
  let progress : ℝ := (step : ℝ) / (totalSteps : ℝ)
  let easeFactor : ℝ := Real.sin (progress * Real.pi)
  maxDelay - goTrunc (((maxDelay - minDelay : ℤ) : ℝ) * easeFactor) + jitter

/-- `StealthManager.calculateMovementDelay` with the configured mouse
speeds, deriving the delay bounds exactly as the source does. -/
noncomputable def calculateMovementDelay (speedMin speedMax : ℝ)
    (step totalSteps : Nat) (jitter : Nat) : ℤ :=
  calculateMovementDelayCore (goTrunc (speedMin * 5)) (goTrunc (speedMax * 15))
    step totalSteps jitter

/-- C1: the rollover check is NOT idempotent across an hour boundary:
with `lastReset` at hour 10 and the clock at hour 11 of the same day,
the first `checkReset` zeroes the `search` counter but leaves the
reset marker at hour 10, so after one recorded search a second
`checkReset` in the same hour 11 zeroes the `search` counter again —
the code zeroes a search count recorded after the last reset within
the same hour, contradicting the claim. -/
theorem checkReset_hourly_rezero :
    let t10 : GoTime := { year := 2024, yearDay := 100, hour := 10, weekday := 2 }
    let t11 : GoTime := { year := 2024, yearDay := 100, hour := 11, weekday := 2 }
    let s0 : RateLimiterState :=
      { actionCounts := fun a => if a = "search" then 7 else 0, lastReset := t10 }
    let s1 := RateLimiter.checkReset t11 s0
    let s2 := RateLimiter.RecordAction "search" s1
    let s3 := RateLimiter.checkReset t11 s2
    s1.actionCounts "search" = 0 ∧ s1.lastReset = t10 ∧
      s2.actionCounts "search" = 1 ∧ s3.actionCounts "search" = 0 := by
  decide

/-- C3 counterexample: with `{enabled := true, startHour := 0, endHour
:= 23, workDaysOnly := false}` the scheduler returns `false` at hour
23, where the claim asserts `true` at every hour 0 through 23. -/
theorem isWithinOperatingHours_false_at_23 :
    Scheduler.IsWithinOperatingHours
      { Enabled := true, StartHour := 0, EndHour := 23, WorkDaysOnly := false }
      { year := 2024, yearDay := 100, hour := 23, weekday := 2 } = false := by
  decide

/-- C3 amended: with `{enabled := true, startHour := 0, endHour := 23,
workDaysOnly := false}` the scheduler returns `true` at every hour 0
through 22 (on every weekday) and `false` at hour 23; with `{startHour
:= 9, endHour := 18}` it is `false` at hours 8 and 18 and `true` at
hours 9 and 17 — the operating window is the half-open interval
`[startHour, endHour)`. -/
theorem isWithinOperatingHours_halfOpen :
    (let cfg : ScheduleConfig :=
      { Enabled := true, StartHour := 0, EndHour := 23, WorkDaysOnly := false }
    ((List.range 23).all fun h =>
      (List.range 7).all fun w =>
        Scheduler.IsWithinOperatingHours cfg
          { year := 2024, yearDay := 100, hour := (h : Int), weekday := (w : Int) }) = true ∧
    Scheduler.IsWithinOperatingHours cfg
      { year := 2024, yearDay := 100, hour := 23, weekday := 2 } = false) ∧
    (let cfg9 : ScheduleConfig :=
      { Enabled := true, StartHour := 9, EndHour := 18, WorkDaysOnly := false }
    Scheduler.IsWithinOperatingHours cfg9
      { year := 2024, yearDay := 100, hour := 8, weekday := 2 } = false ∧
    Scheduler.IsWithinOperatingHours cfg9
      { year := 2024, yearDay := 100, hour := 18, weekday := 2 } = false ∧
    Scheduler.IsWithinOperatingHours cfg9
      { year := 2024, yearDay := 100, hour := 9, weekday := 2 } = true ∧
    Scheduler.IsWithinOperatingHours cfg9
      { year := 2024, yearDay := 100, hour := 17, weekday := 2 } = true) := by
  decide

/-- C4: `WaitForNextAction` fails when the two delay bounds are equal:
with `MinDelayBetweenActions = MaxDelayBetweenActions = 2000` the
source calls `rand.Int63n(0)`, which panics for every random draw
(modelled as `none`), contradicting the claim that the governor never
errors. -/
theorem waitForNextAction_panics_on_equal_bounds :
    ∀ draw : Nat,
      RateLimiter.waitForNextActionDelay
        { MaxConnectionsPerDay := 25, MaxMessagesPerDay := 50,
          MaxProfileViewsPerDay := 100, MaxSearchesPerHour := 10,
          CooldownMinutes := 5, MinDelayBetweenActions := 2000,
          MaxDelayBetweenActions := 2000 } draw = none := by
  intro draw
  simp [RateLimiter.waitForNextActionDelay, randInt63n]

/-- C7: the hardware-concurrency mask is built from the single rune
`'0' + cores[i]`, so the draws selecting 12 and 16 inject the strings
`"<"` and `"@"` — not a decimal representation of an element of
`[4, 8, 12, 16]`. -/
theorem randomHardwareConcurrency_not_decimal :
    randomHardwareConcurrency 2 = "<" ∧ randomHardwareConcurrency 3 = "@" ∧
      randomHardwareConcurrency 2 ∉ (["4", "8", "12", "16"] : List String) := by
  decide

/-- C9: `Config.Validate` accepts a configuration whose
`MaxDelayBetweenActions` is smaller than its `MinDelayBetweenActions`
(and whose `TypingDelayMax` is smaller than its `TypingDelayMin`): no
delay-range check exists in the validator, contradicting the claim
that such configurations are rejected at validation time. -/
theorem validate_accepts_inverted_delay_ranges :
    let c : Config :=
      { LinkedInEmail := "user@example.com", LinkedInPassword := "pw",
        RateLimits :=
          { MaxConnectionsPerDay := 25, MaxMessagesPerDay := 50,
            MaxProfileViewsPerDay := 100, MaxSearchesPerHour := 10,
            CooldownMinutes := 5, MinDelayBetweenActions := 2000,
            MaxDelayBetweenActions := 100 },
        ScheduleStartHour := 9, ScheduleEndHour := 18, LoggingLevel := "info",
        TypingDelayMin := 200, TypingDelayMax := 50 }
    c.RateLimits.MaxDelayBetweenActions < c.RateLimits.MinDelayBetweenActions ∧
      c.TypingDelayMax < c.TypingDelayMin ∧ Config.Validate c = none := by
  decide

/-- C10: for every category outside the fixed set
connection/message/profile_view/search, and for every configuration,
clock and counter state, `CanPerformAction` returns `true` and
`GetRemainingActions` returns the constant 999. -/
theorem unknown_category_permitted (cfg : RateLimitConfig) (now : GoTime)
    (r : RateLimiterState) (category : String)
    (h1 : category ≠ "connection") (h2 : category ≠ "message")
    (h3 : category ≠ "profile_view") (h4 : category ≠ "search") :
    RateLimiter.CanPerformAction cfg now r category = true ∧
      RateLimiter.GetRemainingActions cfg now r category = 999 := by
  simp [RateLimiter.CanPerformAction, RateLimiter.GetRemainingActions,
    RateLimiter.limitFor, h1, h2, h3, h4]

/-- C10 witness: the category `"like"` (with an arbitrary concrete
state) is permitted and reports 999 remaining actions. -/
theorem unknown_category_permitted_witness :
    RateLimiter.CanPerformAction
      { MaxConnectionsPerDay := 25, MaxMessagesPerDay := 50,
        MaxProfileViewsPerDay := 100, MaxSearchesPerHour := 10,
        CooldownMinutes := 5, MinDelayBetweenActions := 2000,
        MaxDelayBetweenActions := 5000 }
      { year := 2024, yearDay := 100, hour := 10, weekday := 2 }
      (RateLimiter.new { year := 2024, yearDay := 100, hour := 10, weekday := 2 })
      "like" = true ∧
    RateLimiter.GetRemainingActions
      { MaxConnectionsPerDay := 25, MaxMessagesPerDay := 50,
        MaxProfileViewsPerDay := 100, MaxSearchesPerHour := 10,
        CooldownMinutes := 5, MinDelayBetweenActions := 2000,
        MaxDelayBetweenActions := 5000 }
      { year := 2024, yearDay := 100, hour := 10, weekday := 2 }
      (RateLimiter.new { year := 2024, yearDay := 100, hour := 10, weekday := 2 })
      "like" = 999 :=
  unknown_category_permitted _ _ _ "like"
    (by decide) (by decide) (by decide) (by decide)

/-- C2: with `MaxConnectionsPerDay = 5` (and a positive message
quota), after exactly 5 `RecordAction "connection"` calls on a fresh
limiter and no rollover boundary crossed, `CanPerformAction
"connection"` is `false`, `GetRemainingActions "connection"` is 0, and
`CanPerformAction "message"` is still `true` — the per-category
counters are independent. -/
theorem connection_quota_exhausted (cfg : RateLimitConfig) (t0 now : GoTime)
    (h5 : cfg.MaxConnectionsPerDay = 5) (hm : 0 < cfg.MaxMessagesPerDay)
    (hy : now.year = t0.year) (hd : now.yearDay = t0.yearDay)
    (hh : now.hour = t0.hour) :
    let st := RateLimiter.RecordAction "connection" (RateLimiter.RecordAction "connection"
      (RateLimiter.RecordAction "connection" (RateLimiter.RecordAction "connection"
        (RateLimiter.RecordAction "connection" (RateLimiter.new t0)))))
    RateLimiter.CanPerformAction cfg now st "connection" = false ∧
      RateLimiter.GetRemainingActions cfg now st "connection" = 0 ∧
      RateLimiter.CanPerformAction cfg now st "message" = true := by
  simp [RateLimiter.CanPerformAction, RateLimiter.GetRemainingActions,
    RateLimiter.checkReset, RateLimiter.RecordAction, RateLimiter.new,
    RateLimiter.limitFor, hy, hd, hh, h5, hm]

/-- C2 witness at the test configuration of the repository
(`MaxConnectionsPerDay = 5`, `MaxMessagesPerDay = 10`) and a fixed
clock. -/
theorem connection_quota_exhausted_witness :
    (0 : Int) < 10 ∧
      (let st := RateLimiter.RecordAction "connection" (RateLimiter.RecordAction "connection"
        (RateLimiter.RecordAction "connection" (RateLimiter.RecordAction "connection"
          (RateLimiter.RecordAction "connection"
            (RateLimiter.new { year := 2024, yearDay := 100, hour := 10, weekday := 2 })))))
      RateLimiter.CanPerformAction
        { MaxConnectionsPerDay := 5, MaxMessagesPerDay := 10,
          MaxProfileViewsPerDay := 20, MaxSearchesPerHour := 3,
          CooldownMinutes := 1, MinDelayBetweenActions := 100,
          MaxDelayBetweenActions := 200 }
        { year := 2024, yearDay := 100, hour := 10, weekday := 2 } st "connection" = false ∧
        RateLimiter.GetRemainingActions
          { MaxConnectionsPerDay := 5, MaxMessagesPerDay := 10,
            MaxProfileViewsPerDay := 20, MaxSearchesPerHour := 3,
            CooldownMinutes := 1, MinDelayBetweenActions := 100,
            MaxDelayBetweenActions := 200 }
          { year := 2024, yearDay := 100, hour := 10, weekday := 2 } st "connection" = 0 ∧
        RateLimiter.CanPerformAction
          { MaxConnectionsPerDay := 5, MaxMessagesPerDay := 10,
            MaxProfileViewsPerDay := 20, MaxSearchesPerHour := 3,
            CooldownMinutes := 1, MinDelayBetweenActions := 100,
            MaxDelayBetweenActions := 200 }
          { year := 2024, yearDay := 100, hour := 10, weekday := 2 } st "message" = true) :=
  ⟨by decide,
    connection_quota_exhausted
      { MaxConnectionsPerDay := 5, MaxMessagesPerDay := 10,
        MaxProfileViewsPerDay := 20, MaxSearchesPerHour := 3,
        CooldownMinutes := 1, MinDelayBetweenActions := 100,
        MaxDelayBetweenActions := 200 }
      { year := 2024, yearDay := 100, hour := 10, weekday := 2 }
      { year := 2024, yearDay := 100, hour := 10, weekday := 2 }
      (by decide) (by decide) (by decide) (by decide) (by decide)⟩

theorem range_map_head_some {α : Type} (n : Nat) (f : Nat → α) (hn : 0 < n) :
    ((List.range n).map f).head? = some (f 0) := by
  rw [List.head?_eq_getElem?]
  simp [List.getElem?_map, List.getElem?_range, hn]

theorem range_map_getLast_some {α : Type} (n : Nat) (f : Nat → α) (hn : 0 < n) :
    ((List.range n).map f).getLast? = some (f (n - 1)) := by
  rw [List.getLast?_eq_getElem?]
  simp [List.getElem?_map, List.getElem?_range, Nat.sub_lt hn]

theorem cubicBezier_zero (p0 p1 p2 p3 : Point) : cubicBezier 0 p0 p1 p2 p3 = p0 := by
  cases p0
  simp [cubicBezier]

theorem cubicBezier_one (p0 p1 p2 p3 : Point) : cubicBezier 1 p0 p1 p2 p3 = p3 := by
  cases p3
  simp [cubicBezier]

theorem numStepsFor_pos (distance : ℚ) : 0 < numStepsFor distance := by
  simp [numStepsFor]

/-- C5: for every distance and random control-point draw, the
generated Bézier path is non-empty, starts exactly at `start` (hence
within any epsilon of it) and ends exactly at the target; and whenever
the overshoot-and-correction tail is appended (the source always uses
`3 + rand.Intn(3) ≥ 1` correction steps), the final point of the
extended plan is still exactly the target.  The degenerate case
`start = stop` is covered: `distance = 0` still yields 10 steps and
the same endpoint equalities. -/
theorem planMotion_endpoints (distance : ℚ) (ctrl1 ctrl2 start stop : Point)
    (pts : List Point) (targetX targetY oX oY : ℚ) (correctionSteps : Nat)
    (hcs : 1 ≤ correctionSteps) :
    (generateBezierPath (numStepsFor distance) ctrl1 ctrl2 start stop ≠ [] ∧
      (generateBezierPath (numStepsFor distance) ctrl1 ctrl2 start stop).head? =
        some start ∧
      (generateBezierPath (numStepsFor distance) ctrl1 ctrl2 start stop).getLast? =
        some stop) ∧
    (addOvershoot pts targetX targetY oX oY correctionSteps).getLast? =
      some { x := targetX, y := targetY } := by
  have hn : 0 < numStepsFor distance := numStepsFor_pos distance
  constructor
  · refine ⟨?_, ?_, ?_⟩
    · rw [generateBezierPath]
      simp only [ne_eq, List.map_eq_nil_iff, List.range_eq_nil]
      omega
    · rw [generateBezierPath, range_map_head_some _ _ hn]
      norm_num [cubicBezier_zero]
    · rw [generateBezierPath, range_map_getLast_some _ _ hn]
      have h10 : (10 : Nat) ≤ numStepsFor distance := by
        simp [numStepsFor]
      have hcast : ((numStepsFor distance - 1 : Nat) : ℚ) =
          ((numStepsFor distance : Nat) : ℚ) - 1 := by
        push_cast [Nat.cast_sub (by omega : 1 ≤ numStepsFor distance)]
        ring
      have hne : ((numStepsFor distance : Nat) : ℚ) - 1 ≠ 0 := by
        have : (10 : ℚ) ≤ ((numStepsFor distance : Nat) : ℚ) := by
          exact_mod_cast h10
        intro h0
        nlinarith
      rw [hcast, div_self hne, cubicBezier_one]
  · rw [addOvershoot]
    rw [List.getLast?_append_of_ne_nil]
    · rw [range_map_getLast_some _ _ (by omega : 0 < correctionSteps)]
      have hcs' : ((correctionSteps : Nat) : ℚ) ≠ 0 := by
        exact_mod_cast Nat.pos_iff_ne_zero.mp (by omega)
      have ht : ((correctionSteps - 1 : Nat) : ℚ) + 1 = ((correctionSteps : Nat) : ℚ) := by
        push_cast [Nat.cast_sub (by omega : 1 ≤ correctionSteps)]
        ring
      simp only [ht, div_self hcs']
      congr 1
      · ring_nf
    · simp only [ne_eq, List.map_eq_nil_iff, List.range_eq_nil]
      omega

/-- C5 witness: a concrete motion plan from the origin to (100, 50),
with a 3-step overshoot correction. -/
theorem planMotion_endpoints_witness :
    (1 : Nat) ≤ 3 ∧
      ((generateBezierPath (numStepsFor 50) { x := 20, y := 5 } { x := 80, y := 45 }
          { x := 0, y := 0 } { x := 100, y := 50 } ≠ [] ∧
        (generateBezierPath (numStepsFor 50) { x := 20, y := 5 } { x := 80, y := 45 }
          { x := 0, y := 0 } { x := 100, y := 50 }).head? = some { x := 0, y := 0 } ∧
        (generateBezierPath (numStepsFor 50) { x := 20, y := 5 } { x := 80, y := 45 }
          { x := 0, y := 0 } { x := 100, y := 50 }).getLast? = some { x := 100, y := 50 }) ∧
      (addOvershoot [] 100 50 7 (-9) 3).getLast? = some { x := 100, y := 50 }) :=
  ⟨by decide,
    planMotion_endpoints 50 { x := 20, y := 5 } { x := 80, y := 45 }
      { x := 0, y := 0 } { x := 100, y := 50 } [] 100 50 7 (-9) 3 (by decide)⟩

theorem humanTypeAux_foldl (mistakeRate : ℚ) (m : Nat → ℚ) (a : Nat → Nat) :
    ∀ (text : List Char) (i : Nat) (buf : List Char),
      (humanTypeAux mistakeRate m a i text).foldl
        (fun buf e =>
          match e with
          | TypeEvent.key c => buf ++ [c]
          | TypeEvent.backspace => buf.dropLast) buf = buf ++ text := by
  intro text
  induction text with
  | nil => intro i buf; simp [humanTypeAux]
  | cons c rest ih =>
      intro i buf
      rw [humanTypeAux]
      by_cases h : 0 < mistakeRate ∧ m i < mistakeRate
      · simp only [if_pos h, List.append_assoc, List.foldl_append, List.foldl_cons,
          List.foldl_nil, List.dropLast_concat]
        rw [ih]
        simp
      · simp only [if_neg h, List.nil_append, List.foldl_append, List.foldl_cons,
          List.foldl_nil]
        rw [ih]
        simp

/-- C6 counterexample: for the digit `'1'` (absent from the adjacency
table), a mistake draw below the mistake rate still makes `HumanType`
press Backspace — a deletion event is emitted for a character outside
the adjacency table, contradicting the claim. -/
theorem humanType_backspace_for_digit :
    humanType 1 (fun _ => (0 : ℚ)) (fun _ => 0) ['1'] =
      [TypeEvent.key '1', TypeEvent.backspace, TypeEvent.key '1'] ∧
      adjacentKeys '1' = none := by
  decide

/-- C6 amended: for every text, mistake rate and random draws, the
corrected text an input field holds after the full keystroke trace of
`HumanType` equals the input text (so exactly `len(text)` correct
characters survive); and for every character outside the adjacency
table (in particular digits and punctuation, which are not uppercase
letters) the "wrong" character chosen by `getAdjacentKey` is the
character itself — no *different* erroneous character is ever emitted
for it, although a type-delete-retype cycle (with its deletion event)
can still occur for such a character. -/
theorem humanType_corrected_text (mistakeRate : ℚ) (m : Nat → ℚ) (a : Nat → Nat)
    (text : List Char) :
    applyEvents (humanType mistakeRate m a text) = text ∧
      ∀ c : Char, adjacentKeys c = none → ¬('A' ≤ c ∧ c ≤ 'Z') →
        ∀ draw : Nat, getAdjacentKey c draw = c := by
  constructor
  · rw [applyEvents, humanType, humanTypeAux_foldl]
    simp
  · intro c hc hup draw
    simp [getAdjacentKey, if_neg hup, hc]

/-- C6 witness: typing `"1a"` with mistake rate 1 and a mistake draw
that always fires still yields the corrected text `"1a"`, and the
wrong key chosen for `'1'` is `'1'` itself. -/
theorem humanType_corrected_text_witness :
    applyEvents (humanType 1 (fun _ => (0 : ℚ)) (fun _ => 0) ['1', 'a']) = ['1', 'a'] ∧
      getAdjacentKey '1' 0 = '1' :=
  ⟨(humanType_corrected_text 1 (fun _ => (0 : ℚ)) (fun _ => 0) ['1', 'a']).1,
    (humanType_corrected_text 1 (fun _ => (0 : ℚ)) (fun _ => 0) ['1', 'a']).2 '1'
      (by decide) (by decide) 0⟩

theorem goTrunc_intCast (n : ℤ) : goTrunc (n : ℝ) = n := by
  by_cases h : (0 : ℝ) ≤ (n : ℝ)
  · rw [goTrunc, if_pos h, Int.floor_intCast]
  · rw [goTrunc, if_neg h, Int.ceil_intCast]

/-- C8 counterexample: with the repository's default mouse speeds
(0.5 and 2.0) and `totalSteps = 3`, steps 1 (the middle step, `3/2`)
and 2 (`totalSteps - 1`) share the same ease factor — `sin(π/3) =
sin(2π/3)` — so with jitter draw 2 at the middle and 0 at the end the
middle delay is NOT strictly less than the final-step delay. -/
theorem calculateMovementDelay_not_strict_at_three_steps :
    ¬ (calculateMovementDelay (1/2) 2 1 3 2 < calculateMovementDelay (1/2) 2 2 3 0) := by
  simp only [calculateMovementDelay, calculateMovementDelayCore]
  intro h
  have hs : ((2 : ℕ) : ℝ) / ((3 : ℕ) : ℝ) * Real.pi =
      Real.pi - ((1 : ℕ) : ℝ) / ((3 : ℕ) : ℝ) * Real.pi := by
    push_cast
    ring
  rw [hs, Real.sin_pi_sub] at h
  omega

/-- C8 amended: the ease-in/ease-out law holds for every configuration
whose derived delay bounds `minDelay = int(MouseSpeedMin*5)`,
`maxDelay = int(MouseSpeedMax*15)` satisfy `maxDelay - minDelay ≥ 5`,
and for every even `totalSteps ≥ 8`: the delay at the middle step
`totalSteps/2` is strictly less than the delay at step 0 and at step
`totalSteps - 1`, for every jitter draw (`rand.Intn(3) ∈ [0,3)`).  The
original claim's unrestricted quantification fails (see the
counterexample at `totalSteps = 3`, where the middle and final steps
share the same ease factor and jitter can invert the comparison). -/
theorem calculateMovementDelayCore_easeInOut (minD maxD : ℤ) (N : Nat)
    (j0 jm je : Nat) (hD : 5 ≤ maxD - minD) (hN : 8 ≤ N) (hNe : N % 2 = 0)
    (hj0 : j0 < 3) (hjm : jm < 3) (hje : je < 3) :
    calculateMovementDelayCore minD maxD (N / 2) N jm <
        calculateMovementDelayCore minD maxD 0 N j0 ∧
      calculateMovementDelayCore minD maxD (N / 2) N jm <
        calculateMovementDelayCore minD maxD (N - 1) N je := by
  have hNR : (0 : ℝ) < (N : ℝ) := by
    have : 0 < N := by omega
    exact_mod_cast this
  -- step 0
  have h0 : calculateMovementDelayCore minD maxD 0 N j0 = maxD + j0 := by
    simp only [calculateMovementDelayCore]
    rw [Nat.cast_zero, zero_div, zero_mul, Real.sin_zero, mul_zero]
    rw [show ((0 : ℝ)) = (((0 : ℤ) : ℝ)) by norm_num, goTrunc_intCast]
    ring
  -- middle step
  have hm : calculateMovementDelayCore minD maxD (N / 2) N jm = minD + jm := by
    simp only [calculateMovementDelayCore]
    have h1 : ((N / 2 : ℕ) : ℝ) / (N : ℝ) = 1 / 2 := by
      obtain ⟨k, hk⟩ : ∃ k, N = 2 * k := ⟨N / 2, by omega⟩
      subst hk
      rw [Nat.mul_div_cancel_left k (by norm_num)]
      have hkR : (0 : ℝ) < (k : ℝ) := by
        have : 0 < k := by omega
        exact_mod_cast this
      push_cast
      field_simp
      ring
    rw [h1, show (1 / 2 : ℝ) * Real.pi = Real.pi / 2 by ring, Real.sin_pi_div_two,
      mul_one, goTrunc_intCast]
    ring
  -- last step
  have harg : ((N - 1 : ℕ) : ℝ) / (N : ℝ) * Real.pi = Real.pi - Real.pi / (N : ℝ) := by
    rw [Nat.cast_sub (by omega : 1 ≤ N)]
    field_simp
    ring
  have hsin_pos : 0 < Real.sin (Real.pi / (N : ℝ)) := by
    apply Real.sin_pos_of_pos_of_lt_pi
    · positivity
    · have h1 : (1 : ℝ) < (N : ℝ) := by
        exact_mod_cast Nat.lt_of_lt_of_le (by norm_num) hN
      calc Real.pi / (N : ℝ) < Real.pi / 1 := by
            apply div_lt_div_of_pos_left Real.pi_pos (by norm_num) h1
        _ = Real.pi := by ring
  have hsin_lt : Real.sin (Real.pi / (N : ℝ)) < Real.pi / (N : ℝ) :=
    Real.sin_lt (by positivity)
  have hbound : Real.sin (Real.pi / (N : ℝ)) < 0.394 := by
    have h8 : (8 : ℝ) ≤ (N : ℝ) := by exact_mod_cast hN
    have : Real.pi / (N : ℝ) ≤ Real.pi / 8 := by
      apply div_le_div_of_nonneg_left Real.pi_pos.le (by norm_num) h8
    nlinarith [Real.pi_lt_d2]
  have hDR : (5 : ℝ) ≤ ((maxD - minD : ℤ) : ℝ) := by exact_mod_cast hD
  have hx_nonneg : (0 : ℝ) ≤ ((maxD - minD : ℤ) : ℝ) * Real.sin (Real.pi / (N : ℝ)) := by
    nlinarith
  have hxlt : ((maxD - minD : ℤ) : ℝ) * Real.sin (Real.pi / (N : ℝ)) <
      ((maxD - minD : ℤ) : ℝ) - 2 := by
    nlinarith
  have hfloor : goTrunc (((maxD - minD : ℤ) : ℝ) * Real.sin (Real.pi / (N : ℝ))) ≤
      maxD - minD - 3 := by
    rw [goTrunc, if_pos hx_nonneg]
    have h1 : (⌊((maxD - minD : ℤ) : ℝ) * Real.sin (Real.pi / (N : ℝ))⌋ : ℝ) <
        ((maxD - minD : ℤ) : ℝ) - 2 :=
      lt_of_le_of_lt (Int.floor_le _) hxlt
    have h2 : (⌊((maxD - minD : ℤ) : ℝ) * Real.sin (Real.pi / (N : ℝ))⌋ : ℝ) <
        ((maxD - minD - 2 : ℤ) : ℝ) := by
      push_cast at h1 ⊢
      linarith
    have h3 : ⌊((maxD - minD : ℤ) : ℝ) * Real.sin (Real.pi / (N : ℝ))⌋ < maxD - minD - 2 := by
      exact_mod_cast h2
    omega
  have he : minD + 3 + (je : ℤ) ≤ calculateMovementDelayCore minD maxD (N - 1) N je := by
    simp only [calculateMovementDelayCore]
    rw [harg, Real.sin_pi_sub]
    omega
  constructor
  · rw [h0, hm]; omega
  · rw [hm]; omega

/-- C8 witness: the amended ease law at `minDelay = 2`, `maxDelay =
30` (the default mouse speeds 0.5 and 2.0), `totalSteps = 8`, with
jitter 2 at the middle step and 0 elsewhere. -/
theorem calculateMovementDelayCore_easeInOut_witness :
    ((5 : ℤ) ≤ 30 - 2 ∧ 8 ≤ 8 ∧ 8 % 2 = 0 ∧ 0 < 3 ∧ 2 < 3) ∧
      (calculateMovementDelayCore 2 30 (8 / 2) 8 2 <
          calculateMovementDelayCore 2 30 0 8 0 ∧
        calculateMovementDelayCore 2 30 (8 / 2) 8 2 <
          calculateMovementDelayCore 2 30 (8 - 1) 8 0) :=
  ⟨by decide,
    calculateMovementDelayCore_easeInOut 2 30 8 0 2 0 (by decide) (by decide)
      (by decide) (by decide) (by decide) (by decide)⟩
